import Mathlib

/-!
Verification of the Maven-Central metadata query service (`src/main.py`).

The service is a set of FastAPI route handlers over a read-only SQLite
table `gav`.  We embed it shallowly: the database is a `List Row` (the
rows of the `gav` table in storage order), each SQL statement of the
query catalog becomes a Lean function on that list reproducing SQLite's
semantics (including `LIKE`'s ASCII case-insensitivity and wildcards,
negative `LIMIT` meaning "no limit", negative `OFFSET` meaning 0, and
the fact that an ungrouped `max()` aggregate always yields exactly one
row, containing NULL when no row matched), and each route handler
becomes a function from the database and its request parameters to an
`HOut`: the HTTP response together with whether the handler opened a
database connection and whether it closed it before returning.
-/

namespace MavenApi

/-- One row of the `gav` table / the `ModelGAV` response shape
(16 columns, in the column order of `SQL_SELECT_GAV`). -/
structure Row where
  group_id : String
  artifact_id : String
  artifact_version : String
  file_name : String
  major_version : Int
  version_seq : Int
  last_modified : String
  size : Int
  sha1 : String
  signature_exists : Int
  sources_exists : Int
  javadoc_exists : Int
  classifier : String
  file_extension : String
  packaging : String
  name : String
deriving DecidableEq, Repr

/-- The `ModelLastModified` response shape. -/
structure ModelLastModified where
  last_modified : String
deriving DecidableEq, Repr

/-- The `ModelUpgrade` response shape. -/
structure ModelUpgrade where
  artifact_version : String
  last_modified : String
deriving DecidableEq, Repr

/-- Source constant `DBMetadata.PAGE_SIZE`. -/
def PAGE_SIZE : Nat := 100

/-- Source constant `DBMetadata.PAGE_SIZE_BIG`. -/
def PAGE_SIZE_BIG : Nat := 1000

/-- Source constant `DBMetadata.MAXLEN_GROUP_ID`. -/
def MAXLEN_GROUP_ID : Nat := 254

/-- Source constant `DBMetadata.MAXLEN_ARTIFACT_ID`. -/
def MAXLEN_ARTIFACT_ID : Nat := 254

/-- Source constant `DBMetadata.MAXLEN_ARTIFACT_VERSION`. -/
def MAXLEN_ARTIFACT_VERSION : Nat := 128

/-- Source constant `DBMetadata.MAXLEN_FILE_NAME`. -/
def MAXLEN_FILE_NAME : Nat := 512

/-- Outcome of one handler invocation.  `ok` is a 200 with a typed body;
`err c d` is a raised `HTTPException(status_code := c, detail := d)`;
`invalid` is FastAPI's 422 for a request parameter failing its declared
validation; `respError` is the 500 produced when the handler raises an
exception that is not an `HTTPException` (here: pydantic rejecting a
NULL column while building a response model). -/
inductive HResp (α : Type) where
  | ok : α → HResp α
  | err : Nat → String → HResp α
  | invalid : HResp α
  | respError : HResp α
deriving DecidableEq, Repr

/-- HTTP status code of a response. -/
def statusOf {α : Type} : HResp α → Nat
  | .ok _ => 200
  | .err c _ => c
  | .invalid => 422
  | .respError => 500

/-- Whether a response is a 200 success. -/
def isOk {α : Type} : HResp α → Bool
  | .ok _ => true
  | _ => false

/-- A handler invocation's observable outcome: its HTTP response, whether
it called `DBMetadata.connect()`, and whether it reached
`connection.close()` before returning. -/
structure HOut (α : Type) where
  resp : HResp α
  opened : Bool
  closed : Bool
deriving DecidableEq, Repr

/-! ## SQLite semantics -/

/-- SQLite `LIMIT lim OFFSET off` on a result list: a negative offset behaves
like 0, a negative limit means no limit. -/
def sqlLimitOffset {α : Type} (lim off : Int) (l : List α) : List α :=
  let rest := l.drop (max off 0).toNat
  if lim < 0 then rest else rest.take lim.toNat

/-- Lower-case an ASCII letter; SQLite's `LIKE` folds case only for
ASCII `A`–`Z`. -/
def asciiLower (c : Char) : Char :=
  if 'A' ≤ c ∧ c ≤ 'Z' then Char.ofNat (c.toNat + 32) else c

/-- SQLite `LIKE` on character lists, with explicit structural fuel so
that the kernel can evaluate it: `%` matches any sequence, `_` any
single character, everything else matches ASCII-case-insensitively.
Every recursive call shrinks `pattern.length + s.length` by at least
one, so fuel `pattern.length + s.length + 1` never runs out. -/
def likeCharsF : Nat → List Char → List Char → Bool
  | 0, _, _ => false
  | _ + 1, [], s => s.isEmpty
  | fuel + 1, '%' :: ps, s =>
    likeCharsF fuel ps s ||
      (match s with
       | [] => false
       | _ :: cs => likeCharsF fuel ('%' :: ps) cs)
  | fuel + 1, '_' :: ps, s =>
    (match s with
     | [] => false
     | _ :: cs => likeCharsF fuel ps cs)
  | fuel + 1, p :: ps, s =>
    (match s with
     | [] => false
     | c :: cs => (asciiLower p = asciiLower c) && likeCharsF fuel ps cs)

/-- SQLite `LIKE` on character lists. -/
def likeChars (p s : List Char) : Bool :=
  likeCharsF (p.length + s.length + 1) p s

/-- SQLite `x LIKE pat` for strings. -/
def sqlLike (pat s : String) : Bool :=
  likeChars pat.data s.data

/-- SQLite `max()` over a column of string values: NULL (`none`) exactly
when there is no value. -/
def maxString : List String → Option String
  | [] => none
  | x :: xs =>
    match maxString xs with
    | none => some x
    | some m => some (if m < x then x else m)

/-! ## `os.path.splitext` -/

/-- Index of the last occurrence of `c` in `cs`, or `none`. -/
def rlastIdx (c : Char) (cs : List Char) : Option Nat :=
  (List.range cs.length).foldl
    (fun acc i => if cs.get? i = some c then some i else acc) none

/-- Python `os.path.splitext(p)[0]` for POSIX paths: split at the last dot,
except that dots that are part of a run of leading dots of the base name
do not start an extension (so `".jar"` has no extension). -/
def splitextBase (p : String) : String :=
  let cs := p.data
  let sepIdx : Int := match rlastIdx '/' cs with | none => -1 | some i => i
  let dotIdx : Int := match rlastIdx '.' cs with | none => -1 | some i => i
  if sepIdx < dotIdx then
    let lo : Nat := (sepIdx + 1).toNat
    let window := (cs.drop lo).take (dotIdx.toNat - lo)
    if window.any (fun c => c ≠ '.') then ⟨cs.take dotIdx.toNat⟩ else p
  else p

/-! ## Sorting by an integer key (for `ORDER BY version_seq`) -/

/-- Insert `x` into `l` before the first element with a key not smaller
than `x`'s. -/
def insertKey {α : Type} (k : α → Int) (x : α) : List α → List α
  | [] => [x]
  | y :: ys => if k x ≤ k y then x :: y :: ys else y :: insertKey k x ys

/-- Insertion sort by an integer key (stable; any total sort realises
SQLite's `ORDER BY`). -/
def sortKey {α : Type} (k : α → Int) : List α → List α
  | [] => []
  | x :: xs => insertKey k x (sortKey k xs)

/-! ## Query catalog -/

/-- Query `SQL_GAV_SELECT_ALL`: `SELECT * FROM gav LIMIT ? OFFSET ?`. -/
def selectAll (db : List Row) (lim off : Int) : List Row :=
  sqlLimitOffset lim off db

/-- Query `SQL_GAV_SELECT_FILE_NAME` followed by `fetchone()`:
`SELECT * FROM gav WHERE file_name = ? LIMIT 1`. -/
def selectFileName (db : List Row) (fn : String) : Option Row :=
  (db.filter (fun r => r.file_name = fn)).head?

/-- Query `SQL_GAV_SELECT_FILE_LAST_MODIFIED`:
`SELECT max(last_modified) FROM gav WHERE file_name LIKE ? LIMIT 1`.
The value of the single result row's single column (NULL = `none`). -/
def selectMaxLastModified (db : List Row) (pat : String) : Option String :=
  maxString ((db.filter (fun r => sqlLike pat r.file_name)).map
    (fun r => r.last_modified))

/-- Query `SQL_GAV_SELECT_GAV`:
`SELECT * FROM gav WHERE group_id = ? AND artifact_id = ? AND
artifact_version = ? LIMIT 100`. -/
def selectGAV (db : List Row) (g a v : String) : List Row :=
  (db.filter (fun r =>
    r.group_id = g ∧ r.artifact_id = a ∧ r.artifact_version = v)).take
    PAGE_SIZE

/-- The rows matching the `WHERE` clause of `SQL_GAV_UPGRADE`. -/
def upgMatches (db : List Row) (g a : String) (seq : Int) : List Row :=
  db.filter (fun r =>
    r.group_id = g ∧ r.artifact_id = a ∧ seq < r.version_seq)

/-- Of two rows, the one SQLite's `max(last_modified)` keeps (on a tie,
the one seen first). -/
def pickNewer (x y : Row) : Row :=
  if x.last_modified < y.last_modified then y else x

/-- The representative row of the `GROUP BY artifact_version` group of
`v`: the row of the group achieving `max(last_modified)` (SQLite's bare
columns in a `max()` aggregate come from such a row); `none` when the
group is empty. -/
def repOf (rows : List Row) (v : String) : Option Row :=
  match rows.filter (fun r => r.artifact_version = v) with
  | [] => none
  | h :: t => some (t.foldl pickNewer h)

/-- The distinct `artifact_version` values among the matching rows (the
`GROUP BY artifact_version` keys). -/
def upgVersions (db : List Row) (g a : String) (seq : Int) : List String :=
  ((upgMatches db g a seq).map (fun r => r.artifact_version)).dedup

/-- One representative row per group (the row the `max(last_modified)`
aggregate selects). -/
def upgReps (db : List Row) (g a : String) (seq : Int) : List Row :=
  (upgVersions db g a seq).filterMap (repOf (upgMatches db g a seq))

/-- The group representatives after `ORDER BY version_seq`. -/
def upgSorted (db : List Row) (g a : String) (seq : Int) : List Row :=
  sortKey (fun r => r.version_seq) (upgReps db g a seq)

/-- Query `SQL_GAV_UPGRADE`:
`SELECT distinct artifact_version, max(last_modified) FROM gav WHERE
group_id = ? AND artifact_id = ? AND version_seq > ? GROUP BY
artifact_version ORDER BY version_seq LIMIT ?`, returning
`(artifact_version, last_modified)` pairs; a negative `LIMIT` means no
limit. -/
def sqlUpgrade (db : List Row) (g a : String) (seq lim : Int) :
    List (String × String) :=
  (if lim < 0 then upgSorted db g a seq
   else (upgSorted db g a seq).take lim.toNat).map
    (fun r => (r.artifact_version, r.last_modified))

/-! ## Route handlers -/

/-- Handler for `GET /api/file/{file_name}` (`gav_file_name` in the source). -/
def gav_file_name (db : List Row) (file_name : String) : HOut Row :=
  if MAXLEN_FILE_NAME < file_name.length then ⟨.invalid, false, false⟩
  else
    match selectFileName db file_name with
    | none => ⟨.err 404 ("File " ++ file_name ++ " not found"), true, false⟩
    | some row => ⟨.ok row, true, true⟩

/-- Handler for `GET /api/filelastmodified/{file_name}` (`gav_file_last_modified`).
The aggregate query always yields one row, so `fetchone()` is never
`None` and the `if not row` 404 branch never fires; when no row matched
the `LIKE` pattern the single column is NULL and
`ModelLastModified(last_modified=None)` raises a pydantic validation
error, surfaced as a 500. -/
def gav_file_last_modified (db : List Row) (file_name : String) :
    HOut ModelLastModified :=
  if MAXLEN_FILE_NAME < file_name.length then ⟨.invalid, false, false⟩
  else
    let base := splitextBase file_name
    if base.length < 1 then
      ⟨.err 400 ("File name is too short: " ++ file_name), false, false⟩
    else
      let aggRow : Option (Option String) :=
        some (selectMaxLastModified db (base ++ "%"))
      match aggRow with
      | none => ⟨.err 404 ("File " ++ file_name ++ " not found"), true, false⟩
      | some none => ⟨.respError, true, false⟩
      | some (some m) => ⟨.ok ⟨m⟩, true, true⟩

/-- Handler for `GET /api/gav` (the first `gav` in the source): paginated listing.
FastAPI validates `limit ≤ PAGE_SIZE`; `skip` is declared `int` with no
bound, so any integer passes validation. -/
def gav (db : List Row) (skip limit : Int) : HOut (List Row) :=
  if ¬ limit ≤ (PAGE_SIZE : Int) then ⟨.invalid, false, false⟩
  else
    let rows := selectAll db limit skip
    if rows.isEmpty then ⟨.err 404 "No items found", true, false⟩
    else ⟨.ok rows, true, true⟩

/-- Handler for `GET /api/gav/{group_id}/{artifact_id}/{artifact_version}` (the
second `gav` in the source; renamed since Lean forbids the duplicate). -/
def gav_by_gav (db : List Row) (group_id artifact_id artifact_version : String) :
    HOut (List Row) :=
  if MAXLEN_GROUP_ID < group_id.length ∨
      MAXLEN_ARTIFACT_ID < artifact_id.length ∨
      MAXLEN_ARTIFACT_VERSION < artifact_version.length then
    ⟨.invalid, false, false⟩
  else
    let gav_str := group_id ++ "/" ++ artifact_id ++ "/" ++ artifact_version
    let rows := selectGAV db group_id artifact_id artifact_version
    if rows.isEmpty then
      ⟨.err 404 ("GAV " ++ gav_str ++ " not found"), true, false⟩
    else ⟨.ok rows, true, true⟩

/-- Handler for `GET /api/fileupgrade/{file_name}` (`file_upgrade`). -/
def file_upgrade (db : List Row) (file_name : String) (limit : Int) :
    HOut (List ModelUpgrade) :=
  if MAXLEN_FILE_NAME < file_name.length ∨ ¬ limit ≤ (PAGE_SIZE_BIG : Int) then
    ⟨.invalid, false, false⟩
  else
    match selectFileName db file_name with
    | none => ⟨.err 404 ("File " ++ file_name ++ " not found"), true, false⟩
    | some item =>
      let rows := sqlUpgrade db item.group_id item.artifact_id
        item.version_seq limit
      if rows.isEmpty then
        ⟨.err 204 ("No newer versions found for file " ++ file_name),
          true, false⟩
      else ⟨.ok (rows.map (fun p => ModelUpgrade.mk p.1 p.2)), true, true⟩

/-- Handler for `GET /api/gavupgrade/{group_id}/{artifact_id}/{artifact_version}`
(`gav_upgrade`).  The base lookup runs `SQL_GAV_SELECT_GAV` and takes
`fetchone()`, i.e. the first row of `selectGAV`. -/
def gav_upgrade (db : List Row)
    (group_id artifact_id artifact_version : String) (limit : Int) :
    HOut (List ModelUpgrade) :=
  if MAXLEN_GROUP_ID < group_id.length ∨
      MAXLEN_ARTIFACT_ID < artifact_id.length ∨
      MAXLEN_ARTIFACT_VERSION < artifact_version.length ∨
      ¬ limit ≤ (PAGE_SIZE_BIG : Int) then
    ⟨.invalid, false, false⟩
  else
    let gav_str := group_id ++ "/" ++ artifact_id ++ "/" ++ artifact_version
    match (selectGAV db group_id artifact_id artifact_version).head? with
    | none => ⟨.err 404 ("GAV " ++ gav_str ++ " not found"), true, false⟩
    | some item =>
      let rows := sqlUpgrade db item.group_id item.artifact_id
        item.version_seq limit
      if rows.isEmpty then
        ⟨.err 204 ("No newer versions found for GAV " ++ gav_str),
          true, false⟩
      else ⟨.ok (rows.map (fun p => ModelUpgrade.mk p.1 p.2)), true, true⟩

/-- A concrete row for witnesses and counterexamples. -/
def mkRow (g a v fn : String) (seq : Int) (lm : String) : Row :=
  ⟨g, a, v, fn, 1, seq, lm, 0, "", 0, 0, 0, "", "jar", "jar", ""⟩

/-! ## Lemmas about `maxString` -/

theorem maxString_ne_none {x : String} {xs : List String} :
    maxString (x :: xs) ≠ none := by
  unfold maxString
  cases maxString xs <;> simp

theorem maxString_mem : ∀ {l : List String} {m : String},
    maxString l = some m → m ∈ l := by
  intro l
  induction l with
  | nil => intro m h; cases h
  | cons x xs ih =>
    intro m h
    unfold maxString at h
    cases hxs : maxString xs with
    | none => rw [hxs] at h; cases h; exact List.mem_cons_self x xs
    | some m0 =>
      rw [hxs] at h
      cases h
      by_cases hlt : m0 < x
      · simp [hlt]
      · simp only [if_neg hlt]
        exact List.mem_cons_of_mem x (ih hxs)

theorem maxString_le : ∀ {l : List String} {m : String},
    maxString l = some m → ∀ x ∈ l, x ≤ m := by
  intro l
  induction l with
  | nil => intro m _ x hx; cases hx
  | cons y ys ih =>
    intro m h x hx
    unfold maxString at h
    cases hys : maxString ys with
    | none =>
      rw [hys] at h
      cases h
      cases hx with
      | head => exact le_refl _
      | tail _ hmem =>
        cases ys with
        | nil => cases hmem
        | cons z zs => exact absurd hys maxString_ne_none
    | some m0 =>
      rw [hys] at h
      cases h
      have hm0 : m0 ≤ if m0 < y then y else m0 := by
        by_cases hlt : m0 < y
        · simp [hlt, le_of_lt hlt]
        · simp [hlt]
      cases hx with
      | head =>
        by_cases hlt : m0 < y
        · simp [hlt]
        · simp only [if_neg hlt]
          exact le_of_not_lt hlt
      | tail _ hmem => exact le_trans (ih hys x hmem) hm0

/-! ## Lemmas about `pickNewer` folds -/

theorem le_pickNewer_left (x y : Row) :
    x.last_modified ≤ (pickNewer x y).last_modified := by
  unfold pickNewer
  by_cases h : x.last_modified < y.last_modified
  · simp [h, le_of_lt h]
  · simp [h]

theorem le_pickNewer_right (x y : Row) :
    y.last_modified ≤ (pickNewer x y).last_modified := by
  unfold pickNewer
  by_cases h : x.last_modified < y.last_modified
  · simp [h]
  · simp [h, le_of_not_lt h]

theorem foldl_pickNewer_mem : ∀ (t : List Row) (h : Row),
    t.foldl pickNewer h ∈ h :: t := by
  intro t
  induction t with
  | nil => intro h; simp [List.foldl]
  | cons y ys ih =>
    intro h
    have := ih (pickNewer h y)
    rcases List.mem_cons.mp this with heq | hmem
    · rw [List.foldl_cons, heq]
      unfold pickNewer
      by_cases hlt : h.last_modified < y.last_modified <;> simp [hlt]
    · rw [List.foldl_cons]
      exact List.mem_cons_of_mem _ (List.mem_cons_of_mem _ hmem)

theorem foldl_pickNewer_le : ∀ (t : List Row) (h x : Row), x ∈ h :: t →
    x.last_modified ≤ (t.foldl pickNewer h).last_modified := by
  intro t
  induction t with
  | nil =>
    intro h x hx
    rcases List.mem_cons.mp hx with heq | hmem
    · rw [heq]; exact le_refl _
    · cases hmem
  | cons y ys ih =>
    intro h x hx
    rw [List.foldl_cons]
    rcases List.mem_cons.mp hx with heq | hmem
    · rw [heq]
      exact le_trans (le_pickNewer_left h y)
        (ih (pickNewer h y) _ (List.mem_cons_self _ _))
    · rcases List.mem_cons.mp hmem with heq2 | hmem2
      · rw [heq2]
        exact le_trans (le_pickNewer_right h y)
          (ih (pickNewer h y) _ (List.mem_cons_self _ _))
      · exact ih (pickNewer h y) x (List.mem_cons_of_mem _ hmem2)

/-! ## Lemmas about `insertKey` / `sortKey` -/

theorem insertKey_perm {α : Type} (k : α → Int) (x : α) :
    ∀ l : List α, List.Perm (insertKey k x l) (x :: l) := by
  intro l
  induction l with
  | nil => simp [insertKey]
  | cons y ys ih =>
    unfold insertKey
    by_cases h : k x ≤ k y
    · simp [h]
    · simp only [if_neg h]
      exact List.Perm.trans (List.Perm.cons y ih) (List.Perm.swap x y ys)

theorem sortKey_perm {α : Type} (k : α → Int) :
    ∀ l : List α, List.Perm (sortKey k l) l := by
  intro l
  induction l with
  | nil => simp [sortKey]
  | cons x xs ih =>
    unfold sortKey
    exact List.Perm.trans (insertKey_perm k x (sortKey k xs))
      (List.Perm.cons x ih)

theorem pairwise_insertKey {α : Type} (k : α → Int) (x : α) :
    ∀ {l : List α}, l.Pairwise (fun a b => k a ≤ k b) →
    (insertKey k x l).Pairwise (fun a b => k a ≤ k b) := by
  intro l
  induction l with
  | nil => intro _; simp [insertKey]
  | cons y ys ih =>
    intro hp
    rcases List.pairwise_cons.mp hp with ⟨hy, hys⟩
    unfold insertKey
    by_cases h : k x ≤ k y
    · simp only [if_pos h]
      refine List.pairwise_cons.mpr ⟨?_, hp⟩
      intro z hz
      rcases List.mem_cons.mp hz with heq | hmem
      · rw [heq]; exact h
      · exact le_trans h (hy z hmem)
    · simp only [if_neg h]
      refine List.pairwise_cons.mpr ⟨?_, ih hys⟩
      intro z hz
      rcases List.mem_cons.mp ((insertKey_perm k x ys).mem_iff.mp hz) with
        heq | hmem
      · rw [heq]; exact le_of_lt (lt_of_not_le h)
      · exact hy z hmem

theorem pairwise_sortKey {α : Type} (k : α → Int) :
    ∀ l : List α, (sortKey k l).Pairwise (fun a b => k a ≤ k b) := by
  intro l
  induction l with
  | nil => simp [sortKey]
  | cons x xs ih => exact pairwise_insertKey k x ih

/-! ## Lemmas about `repOf` and `sqlUpgrade` -/

theorem repOf_mem_filter {rows : List Row} {v : String} {r : Row}
    (h : repOf rows v = some r) :
    r ∈ rows.filter (fun x => x.artifact_version = v) := by
  unfold repOf at h
  split at h
  · exact Option.noConfusion h
  · next hd tl heq =>
      cases h
      rw [heq]
      exact foldl_pickNewer_mem tl hd

theorem repOf_av {rows : List Row} {v : String} {r : Row}
    (h : repOf rows v = some r) : r.artifact_version = v := by
  have := repOf_mem_filter h
  rcases List.mem_filter.mp this with ⟨_, hp⟩
  exact of_decide_eq_true hp

theorem repOf_mem {rows : List Row} {v : String} {r : Row}
    (h : repOf rows v = some r) : r ∈ rows :=
  List.mem_of_mem_filter (repOf_mem_filter h)

theorem repOf_le {rows : List Row} {v : String} {r : Row}
    (h : repOf rows v = some r) :
    ∀ x ∈ rows, x.artifact_version = v →
      x.last_modified ≤ r.last_modified := by
  intro x hx hv
  unfold repOf at h
  split at h
  · exact Option.noConfusion h
  · next hd tl heq =>
      cases h
      have hxf : x ∈ rows.filter (fun y => decide (y.artifact_version = v)) :=
        List.mem_filter.mpr ⟨hx, by simp [hv]⟩
      rw [heq] at hxf
      exact foldl_pickNewer_le tl hd x hxf

theorem nodup_map_filterMap {β γ : Type} (f : γ → Option β) (g : β → γ)
    (hfg : ∀ v r, f v = some r → g r = v) :
    ∀ {l : List γ}, l.Nodup → ((l.filterMap f).map g).Nodup := by
  intro l
  induction l with
  | nil => intro _; simp
  | cons v vs ih =>
    intro hnd
    rcases List.nodup_cons.mp hnd with ⟨hv, hvs⟩
    cases hfv : f v with
    | none => simpa [List.filterMap_cons, hfv] using ih hvs
    | some b =>
      rw [List.filterMap_cons, hfv, List.map_cons]
      refine List.nodup_cons.mpr ⟨?_, ih hvs⟩
      intro hmem
      rcases List.mem_map.mp hmem with ⟨r, hr, hgr⟩
      rcases List.mem_filterMap.mp hr with ⟨v2, hv2, hfv2⟩
      have h1 : g r = v2 := hfg v2 r hfv2
      have h2 : g b = v := hfg v b hfv
      rw [h1, h2] at hgr
      exact hv (hgr ▸ hv2)

/-! ## Concrete data for witnesses and counterexamples -/

/-- A published artifact file. -/
def rowBase : Row :=
  mkRow "com.example" "example" "1.0" "example-1.0.jar" 5 "2020-05-05"

/-- A newer version of the same artifact. -/
def rowNewer : Row :=
  mkRow "com.example" "example" "2.0" "example-2.0.jar" 8 "2024-01-01"

/-! ## Claim C6 -/

/-- C6: for every `file_name` present in the dataset, `ByFileName`
(`GET /api/file/{file_name}`) succeeds with exactly one record (the
response type carries a single `Row`) whose `file_name` equals the
queried name exactly. -/
theorem c6_file_name_exact_match (db : List Row) (fn : String)
    (hlen : fn.length ≤ MAXLEN_FILE_NAME)
    (hmem : ∃ r ∈ db, r.file_name = fn) :
    ∃ r, (gav_file_name db fn).resp = HResp.ok r ∧ r.file_name = fn := by
  have hnot : ¬ MAXLEN_FILE_NAME < fn.length := not_lt.mpr hlen
  obtain ⟨r0, hr0, hfn⟩ := hmem
  cases hf : db.filter (fun r => decide (r.file_name = fn)) with
  | nil =>
    exfalso
    have := List.filter_eq_nil_iff.mp hf r0 hr0
    simp [hfn] at this
  | cons hd tl =>
    have hsel : selectFileName db fn = some hd := by
      unfold selectFileName
      rw [hf]
      rfl
    have hdmem : hd ∈ db.filter (fun r => decide (r.file_name = fn)) := by
      rw [hf]
      exact List.mem_cons_self _ _
    have hdfn : hd.file_name = fn :=
      of_decide_eq_true (List.mem_filter.mp hdmem).2
    refine ⟨hd, ?_, hdfn⟩
    unfold gav_file_name
    rw [if_neg hnot, hsel]

theorem c6_file_name_exact_match_witness :
    ("example-1.0.jar".length ≤ MAXLEN_FILE_NAME) ∧
    (∃ r ∈ [rowBase], r.file_name = "example-1.0.jar") ∧
    (∃ r, (gav_file_name [rowBase] "example-1.0.jar").resp = HResp.ok r ∧
      r.file_name = "example-1.0.jar") :=
  ⟨by decide, by decide,
    c6_file_name_exact_match [rowBase] "example-1.0.jar" (by decide)
      (by decide)⟩

/-! ## Claim C8 -/

/-- C8: for every `(group_id, artifact_id, artifact_version)` triple
present in the dataset, `ByGAV`
(`GET /api/gav/{group_id}/{artifact_id}/{artifact_version}`) succeeds
with a non-empty list of at most `PAGE_SIZE` (100) records, each
matching all three coordinates exactly. -/
theorem c8_by_gav_matches (db : List Row) (g a v : String)
    (hg : g.length ≤ MAXLEN_GROUP_ID) (ha : a.length ≤ MAXLEN_ARTIFACT_ID)
    (hv : v.length ≤ MAXLEN_ARTIFACT_VERSION)
    (hmem : ∃ r ∈ db,
      r.group_id = g ∧ r.artifact_id = a ∧ r.artifact_version = v) :
    ∃ rows, (gav_by_gav db g a v).resp = HResp.ok rows ∧ rows ≠ [] ∧
      rows.length ≤ PAGE_SIZE ∧
      ∀ r ∈ rows,
        r.group_id = g ∧ r.artifact_id = a ∧ r.artifact_version = v := by
  have hcond : ¬ (MAXLEN_GROUP_ID < g.length ∨
      MAXLEN_ARTIFACT_ID < a.length ∨
      MAXLEN_ARTIFACT_VERSION < v.length) := by
    push_neg
    exact ⟨hg, ha, hv⟩
  obtain ⟨r0, hr0, hprops⟩ := hmem
  have hne : selectGAV db g a v ≠ [] := by
    unfold selectGAV
    intro htake
    rcases List.take_eq_nil_iff.mp htake with hps | hfil
    · exact absurd hps (by decide)
    · have := List.filter_eq_nil_iff.mp hfil r0 hr0
      simp [hprops.1, hprops.2.1, hprops.2.2] at this
  have hlen : (selectGAV db g a v).length ≤ PAGE_SIZE := by
    unfold selectGAV
    rw [List.length_take]
    exact min_le_left _ _
  have hall : ∀ r ∈ selectGAV db g a v,
      r.group_id = g ∧ r.artifact_id = a ∧ r.artifact_version = v := by
    intro r hr
    unfold selectGAV at hr
    have hmf := List.mem_filter.mp (List.take_subset _ _ hr)
    exact of_decide_eq_true hmf.2
  refine ⟨selectGAV db g a v, ?_, hne, hlen, hall⟩
  unfold gav_by_gav
  rw [if_neg hcond]
  have hie : (selectGAV db g a v).isEmpty = false := by
    simp [List.isEmpty_iff, hne]
  simp only [hie]
  rfl

theorem c8_by_gav_matches_witness :
    ("com.example".length ≤ MAXLEN_GROUP_ID) ∧
    ("example".length ≤ MAXLEN_ARTIFACT_ID) ∧
    ("1.0".length ≤ MAXLEN_ARTIFACT_VERSION) ∧
    (∃ r ∈ [rowBase, rowNewer], r.group_id = "com.example" ∧
      r.artifact_id = "example" ∧ r.artifact_version = "1.0") ∧
    (∃ rows, (gav_by_gav [rowBase, rowNewer] "com.example" "example"
        "1.0").resp = HResp.ok rows ∧ rows ≠ [] ∧
      rows.length ≤ PAGE_SIZE ∧
      ∀ r ∈ rows, r.group_id = "com.example" ∧ r.artifact_id = "example" ∧
        r.artifact_version = "1.0") :=
  ⟨by decide, by decide, by decide, by decide,
    c8_by_gav_matches [rowBase, rowNewer] "com.example" "example" "1.0"
      (by decide) (by decide) (by decide) (by decide)⟩

/-! ## Claim C10 -/

/-- Two handler invocations on equal database snapshots, with the same
parameters, produce equal `HOut` values (status, body and connection
behaviour), for every route handler of the service. -/
def HandlersAgree (db1 db2 : List Row) (fn g a v : String)
    (skip lim : Int) : Prop :=
  gav_file_name db1 fn = gav_file_name db2 fn ∧
  gav_file_last_modified db1 fn = gav_file_last_modified db2 fn ∧
  gav db1 skip lim = gav db2 skip lim ∧
  gav_by_gav db1 g a v = gav_by_gav db2 g a v ∧
  file_upgrade db1 fn lim = file_upgrade db2 fn lim ∧
  gav_upgrade db1 g a v lim = gav_upgrade db2 g a v lim

/-- C10: every route handler is deterministic: it is a pure function of
the database content and the request parameters (the embedding carries
no other state, matching the source, which keeps no mutable module
state), so two invocations with equal database content and identical
parameters return identical responses. -/
theorem c10_handlers_deterministic (db1 db2 : List Row)
    (fn g a v : String) (skip lim : Int) (hdb : db1 = db2) :
    HandlersAgree db1 db2 fn g a v skip lim := by
  subst hdb
  exact ⟨rfl, rfl, rfl, rfl, rfl, rfl⟩

theorem c10_handlers_deterministic_witness :
    ([rowBase] : List Row) = [rowBase] ∧
    HandlersAgree [rowBase] [rowBase] "example-1.0.jar" "com.example"
      "example" "1.0" 0 100 :=
  ⟨rfl, c10_handlers_deterministic [rowBase] [rowBase] "example-1.0.jar"
    "com.example" "example" "1.0" 0 100 rfl⟩

/-! ## Claim C1 -/

/-- C1 counterexample: `GET /api/file/x.jar` on an empty dataset takes
the 404 exit after opening a connection, and that connection is never
closed — refuting "closes that connection on every exit path". -/
theorem c1_counterexample :
    statusOf (gav_file_name ([] : List Row) "x.jar").resp = 404 ∧
    (gav_file_name ([] : List Row) "x.jar").opened = true ∧
    (gav_file_name ([] : List Row) "x.jar").closed = false :=
  ⟨rfl, rfl, rfl⟩

/-- Connection discipline actually implemented by the handlers: the
connection is closed exactly on the 200 path; it is opened whenever the
handler body runs (i.e. unless request validation fails with 422, or —
for the last-modified route only — the 400 structural check fires,
which happens before `connect()`). -/
def ConnSpec (db : List Row) (fn g a v : String) (skip lim : Int) : Prop :=
  ((gav_file_name db fn).closed = isOk (gav_file_name db fn).resp) ∧
  ((gav_file_name db fn).opened =
    decide (statusOf (gav_file_name db fn).resp ≠ 422)) ∧
  ((gav_file_last_modified db fn).closed =
    isOk (gav_file_last_modified db fn).resp) ∧
  ((gav_file_last_modified db fn).opened =
    decide (statusOf (gav_file_last_modified db fn).resp ≠ 422 ∧
      statusOf (gav_file_last_modified db fn).resp ≠ 400)) ∧
  ((gav db skip lim).closed = isOk (gav db skip lim).resp) ∧
  ((gav db skip lim).opened =
    decide (statusOf (gav db skip lim).resp ≠ 422)) ∧
  ((gav_by_gav db g a v).closed = isOk (gav_by_gav db g a v).resp) ∧
  ((gav_by_gav db g a v).opened =
    decide (statusOf (gav_by_gav db g a v).resp ≠ 422)) ∧
  ((file_upgrade db fn lim).closed = isOk (file_upgrade db fn lim).resp) ∧
  ((file_upgrade db fn lim).opened =
    decide (statusOf (file_upgrade db fn lim).resp ≠ 422)) ∧
  ((gav_upgrade db g a v lim).closed =
    isOk (gav_upgrade db g a v lim).resp) ∧
  ((gav_upgrade db g a v lim).opened =
    decide (statusOf (gav_upgrade db g a v lim).resp ≠ 422))

/-- C1 amended: every handler closes its connection on the success path
only; on the error exits taken after `connect()` (404, 204, and the 500
response-validation failure) the connection is left open.  The 400 exit
of the last-modified route occurs before any connection is opened. -/
theorem c1_amended (db : List Row) (fn g a v : String) (skip lim : Int) :
    ConnSpec db fn g a v skip lim := by
  unfold ConnSpec
  refine ⟨?_, ?_, ?_, ?_, ?_, ?_, ?_, ?_, ?_, ?_, ?_, ?_⟩
  · unfold gav_file_name
    split
    · rfl
    · split <;> rfl
  · unfold gav_file_name
    split
    · rfl
    · split <;> rfl
  · simp only [gav_file_last_modified]
    split
    · rfl
    · split
      · rfl
      · cases selectMaxLastModified db (splitextBase fn ++ "%") <;> rfl
  · simp only [gav_file_last_modified]
    split
    · rfl
    · split
      · rfl
      · cases selectMaxLastModified db (splitextBase fn ++ "%") <;> rfl
  · simp only [gav]
    split
    · rfl
    · split <;> rfl
  · simp only [gav]
    split
    · rfl
    · split <;> rfl
  · simp only [gav_by_gav]
    split
    · rfl
    · split <;> rfl
  · simp only [gav_by_gav]
    split
    · rfl
    · split <;> rfl
  · simp only [file_upgrade]
    split
    · rfl
    · split
      · rfl
      · split <;> rfl
  · simp only [file_upgrade]
    split
    · rfl
    · split
      · rfl
      · split <;> rfl
  · simp only [gav_upgrade]
    split
    · rfl
    · split
      · rfl
      · split <;> rfl
  · simp only [gav_upgrade]
    split
    · rfl
    · split
      · rfl
      · split <;> rfl

/-! ## Claim C2 -/

/-- Dataset for the C2 failing input: no file name starts with
`doesnotexist`. -/
def dbC2 : List Row :=
  [mkRow "com.example" "example" "1.0" "other.jar" 5 "2020-05-05"]

/-- C2: the code_bug theorem.  On `GET /api/filelastmodified/` with a
name whose stripped prefix matches no row, the aggregate query still
returns one row (whose single column is NULL), so the `if not row` 404
branch never fires; the handler instead crashes building
`ModelLastModified(last_modified=None)` and the response is a 500, not
the documented 404. -/
theorem c2_no_match_is_500_not_404 :
    (gav_file_last_modified dbC2 "doesnotexist.jar").resp =
      HResp.respError ∧
    statusOf (gav_file_last_modified dbC2 "doesnotexist.jar").resp ≠ 404 := by
  decide

/-! ## Claim C3 -/

/-- Length of the returned page, when the response is a 200. -/
def okLength (r : HResp (List Row)) : Option Nat :=
  match r with
  | .ok l => some l.length
  | _ => none

/-- C3 counterexample: the request `GET /api/gav?skip=0&limit=-1` passes
validation (only `limit ≤ 100` is checked), SQLite treats the negative
`LIMIT` as "no limit", and on a 101-row dataset the handler returns 101
rows — more than `min(L, 100)` and more than the alleged server-side cap
of 100. -/
theorem c3_counterexample :
    okLength (gav (List.replicate 101 rowBase) 0 (-1)).resp = some 101 ∧
    ¬ ((101 : Int) ≤ min (-1 : Int) (PAGE_SIZE : Int)) ∧
    ¬ ((101 : Nat) ≤ PAGE_SIZE) := by
  refine ⟨rfl, by decide, by decide⟩

/-- What the pagination actually guarantees: for a non-negatively
requested limit `L`, a 200 response holds at most `min(L, 100)` rows,
and `L > 100` is rejected with a 422. -/
def ListPageBound (db : List Row) (skip lim : Int) : Prop :=
  (∀ rows, (gav db skip lim).resp = HResp.ok rows →
    (rows.length : Int) ≤ min lim (PAGE_SIZE : Int)) ∧
  ((PAGE_SIZE : Int) < lim → (gav db skip lim).resp = HResp.invalid)

/-- C3 amended: the `min(L, 100)` bound holds for every non-negative
client-requested limit `L` (values above 100 are rejected by
validation), but a negative `L` passes validation and is executed by
SQLite as "no limit", so the server-side cap does not bound the result
size for negative limits. -/
theorem c3_amended (db : List Row) (skip lim : Int) (h0 : 0 ≤ lim) :
    ListPageBound db skip lim := by
  unfold ListPageBound
  constructor
  · intro rows hrows
    by_cases hle : lim ≤ (PAGE_SIZE : Int)
    · rw [min_eq_left hle]
      unfold gav at hrows
      rw [if_neg (not_not.mpr hle)] at hrows
      by_cases he : (selectAll db lim skip).isEmpty
      · simp [he] at hrows
      · simp [he] at hrows
        have hlen : (selectAll db lim skip).length ≤ lim.toNat := by
          unfold selectAll sqlLimitOffset
          rw [if_neg (not_lt.mpr h0), List.length_take]
          exact min_le_left _ _
        rw [← hrows]
        calc ((selectAll db lim skip).length : Int)
            ≤ (lim.toNat : Int) := by exact_mod_cast hlen
          _ = lim := Int.toNat_of_nonneg h0
    · exfalso
      have hinv : (gav db skip lim).resp = HResp.invalid := by
        unfold gav
        rw [if_pos hle]
      rw [hinv] at hrows
      exact HResp.noConfusion hrows
  · intro hlt
    unfold gav
    rw [if_pos (not_le.mpr hlt)]

theorem c3_amended_witness :
    (0 : Int) ≤ 100 ∧ ListPageBound [rowBase] 0 100 :=
  ⟨by decide, c3_amended [rowBase] 0 100 (by decide)⟩

/-! ## Claim C4 -/

/-- C4 counterexample: `GET /api/gav?skip=-5&limit=100` is not rejected;
it passes validation and returns a 200 — `skip` has no `ge=0`
constraint in the source. -/
theorem c4_counterexample :
    (gav [rowBase] (-5) 100).resp = HResp.ok [rowBase] ∧
    (gav [rowBase] (-5) 100).resp ≠ HResp.invalid := by
  decide

/-- What the handler actually does with a negative `skip`: the request
passes validation (only `limit` is constrained) and behaves exactly as
`skip = 0`, because SQLite clamps a negative `OFFSET` to zero. -/
def NegativeSkipSpec (db : List Row) (skip lim : Int) : Prop :=
  gav db skip lim = gav db 0 lim ∧
  (lim ≤ (PAGE_SIZE : Int) → (gav db skip lim).resp ≠ HResp.invalid)

/-- C4 amended: `skip` defaults to 0 but is not validated; a negative
`skip` passes input validation and the handler treats it as 0. -/
theorem c4_amended (db : List Row) (skip lim : Int) (h : skip < 0) :
    NegativeSkipSpec db skip lim := by
  unfold NegativeSkipSpec
  have hmax : (max skip 0 : Int) = max (0 : Int) 0 := by
    rw [max_eq_right h.le, max_self]
  constructor
  · unfold gav selectAll sqlLimitOffset
    rw [hmax]
  · intro hle
    by_cases he : (selectAll db lim skip).isEmpty <;>
      simp [gav, not_not.mpr hle, he]

theorem c4_amended_witness :
    (-5 : Int) < 0 ∧ NegativeSkipSpec [rowBase] (-5) 100 :=
  ⟨by decide, c4_amended [rowBase] (-5) 100 (by decide)⟩

/-! ## Claim C5 -/

theorem mem_upgMatches {db : List Row} {g a : String} {seqN : Int}
    {r : Row} : r ∈ upgMatches db g a seqN ↔
      r ∈ db ∧ r.group_id = g ∧ r.artifact_id = a ∧
        seqN < r.version_seq := by
  unfold upgMatches
  constructor
  · intro h
    have hm := List.mem_filter.mp h
    exact ⟨hm.1, of_decide_eq_true hm.2⟩
  · intro h
    exact List.mem_filter.mpr ⟨h.1, decide_eq_true h.2⟩

theorem mem_upgReps {db : List Row} {g a : String} {seqN : Int} {r : Row}
    (h : r ∈ upgReps db g a seqN) :
    repOf (upgMatches db g a seqN) r.artifact_version = some r ∧
      r ∈ upgMatches db g a seqN := by
  rcases List.mem_filterMap.mp h with ⟨v, _, hrep⟩
  have hav := repOf_av hrep
  exact ⟨by rw [hav]; exact hrep, repOf_mem hrep⟩

theorem mem_upgSorted {db : List Row} {g a : String} {seqN : Int}
    {r : Row} (h : r ∈ upgSorted db g a seqN) :
    r ∈ upgReps db g a seqN := by
  unfold upgSorted at h
  exact (sortKey_perm (fun x => x.version_seq)
    (upgReps db g a seqN)).mem_iff.mp h

/-- The `version_seq` the newer-versions query associates with a
returned `artifact_version`: that of the group's representative row. -/
def upgSeq (db : List Row) (g a : String) (seqN : Int) (ver : String) :
    Int :=
  match repOf (upgMatches db g a seqN) ver with
  | none => 0
  | some r => r.version_seq

/-- What the NewerVersions query guarantees: every returned pair comes
from a matching row (same group and artifact, `version_seq` strictly
above the reference), the returned `artifact_version`s are distinct,
each pair carries the maximum `last_modified` of its version's matching
rows, the pairs are ordered by ascending representative `version_seq`,
and no more than `lim` pairs are returned. -/
def UpgradeQuerySpec (db : List Row) (g a : String) (seqN lim : Int) :
    Prop :=
  (∀ p ∈ sqlUpgrade db g a seqN lim, ∃ r ∈ db,
    r.group_id = g ∧ r.artifact_id = a ∧ seqN < r.version_seq ∧
      r.artifact_version = p.1 ∧ r.last_modified = p.2) ∧
  ((sqlUpgrade db g a seqN lim).map Prod.fst).Nodup ∧
  (∀ p ∈ sqlUpgrade db g a seqN lim, ∀ r ∈ db,
    r.group_id = g → r.artifact_id = a → seqN < r.version_seq →
      r.artifact_version = p.1 → r.last_modified ≤ p.2) ∧
  (sqlUpgrade db g a seqN lim).Pairwise
    (fun p q => upgSeq db g a seqN p.1 ≤ upgSeq db g a seqN q.1) ∧
  ((sqlUpgrade db g a seqN lim).length : Int) ≤ lim

/-- C5 counterexample: with the client-suppliable limit `-1` (the
handlers only validate `limit ≤ 1000`), SQLite's negative `LIMIT` means
"no limit" and the query returns a row, which is more than the claimed
bound of "never more than limit rows". -/
theorem c5_counterexample :
    (sqlUpgrade [rowNewer] "com.example" "example" 0 (-1)).length = 1 ∧
    ¬ ((1 : Int) ≤ -1) := by
  decide

/-- C5 amended: all the claimed properties of the NewerVersions query
hold for every non-negative `limit` (a negative `limit` passes the
handlers' validation and is executed as "no limit", so the row-count
bound only holds for `limit ≥ 0`). -/
theorem c5_amended (db : List Row) (g a : String) (seqN lim : Int)
    (h0 : 0 ≤ lim) : UpgradeQuerySpec db g a seqN lim := by
  have hif : (if lim < 0 then upgSorted db g a seqN
      else (upgSorted db g a seqN).take lim.toNat) =
      (upgSorted db g a seqN).take lim.toNat := if_neg (not_lt.mpr h0)
  have hmemL : ∀ r, r ∈ (upgSorted db g a seqN).take lim.toNat →
      r ∈ upgReps db g a seqN := fun r hr =>
    mem_upgSorted (List.take_subset _ _ hr)
  have hkey : ∀ r ∈ (upgSorted db g a seqN).take lim.toNat,
      upgSeq db g a seqN r.artifact_version = r.version_seq := by
    intro r hr
    have hrep := (mem_upgReps (hmemL r hr)).1
    unfold upgSeq
    rw [hrep]
  unfold UpgradeQuerySpec
  refine ⟨?_, ?_, ?_, ?_, ?_⟩
  · intro p hp
    unfold sqlUpgrade at hp
    rw [hif] at hp
    rcases List.mem_map.mp hp with ⟨r, hrl, hpr⟩
    subst hpr
    have hrm := (mem_upgReps (hmemL r hrl)).2
    have hdb := mem_upgMatches.mp hrm
    exact ⟨r, hdb.1, hdb.2.1, hdb.2.2.1, hdb.2.2.2, rfl, rfl⟩
  · have hnd : ((upgReps db g a seqN).map
        (fun r => r.artifact_version)).Nodup :=
      nodup_map_filterMap (repOf (upgMatches db g a seqN))
        (fun r => r.artifact_version) (fun v r h => repOf_av h)
        (List.nodup_dedup _)
    have hndS : ((upgSorted db g a seqN).map
        (fun r => r.artifact_version)).Nodup := by
      unfold upgSorted
      exact (((sortKey_perm (fun x => x.version_seq)
        (upgReps db g a seqN)).map _).nodup_iff).mpr hnd
    have hndL : (((upgSorted db g a seqN).take lim.toNat).map
        (fun r => r.artifact_version)).Nodup :=
      hndS.sublist ((List.take_sublist _ _).map _)
    have hout : (sqlUpgrade db g a seqN lim).map Prod.fst =
        ((upgSorted db g a seqN).take lim.toNat).map
          (fun r => r.artifact_version) := by
      unfold sqlUpgrade
      rw [hif, List.map_map]
      rfl
    rw [hout]
    exact hndL
  · intro p hp r hr hg ha hseq hav
    unfold sqlUpgrade at hp
    rw [hif] at hp
    rcases List.mem_map.mp hp with ⟨rp, hrl, hpr⟩
    subst hpr
    have hrep := (mem_upgReps (hmemL rp hrl)).1
    have hrm : r ∈ upgMatches db g a seqN :=
      mem_upgMatches.mpr ⟨hr, hg, ha, hseq⟩
    exact repOf_le hrep r hrm hav
  · have hpwS : (upgSorted db g a seqN).Pairwise
        (fun x y => x.version_seq ≤ y.version_seq) := by
      unfold upgSorted
      exact pairwise_sortKey (fun x => x.version_seq) (upgReps db g a seqN)
    have hpw : ((upgSorted db g a seqN).take lim.toNat).Pairwise
        (fun x y => x.version_seq ≤ y.version_seq) :=
      hpwS.sublist (List.take_sublist _ _)
    have hpair2 : ((upgSorted db g a seqN).take lim.toNat).Pairwise
        (fun x y => upgSeq db g a seqN x.artifact_version ≤
          upgSeq db g a seqN y.artifact_version) :=
      List.Pairwise.imp_of_mem
        (fun hx hy hxy => by rw [hkey _ hx, hkey _ hy]; exact hxy) hpw
    unfold sqlUpgrade
    rw [hif]
    exact hpair2.map _ (fun x y h => h)
  · unfold sqlUpgrade
    rw [hif, List.length_map]
    calc (((upgSorted db g a seqN).take lim.toNat).length : Int)
        ≤ (lim.toNat : Int) := by
          exact_mod_cast (List.length_take _ _).trans_le (min_le_left _ _)
      _ = lim := Int.toNat_of_nonneg h0

theorem c5_amended_witness :
    (0 : Int) ≤ 1000 ∧
    UpgradeQuerySpec [rowBase, rowNewer] "com.example" "example" 5 1000 :=
  ⟨by decide,
    c5_amended [rowBase, rowNewer] "com.example" "example" 5 1000
      (by decide)⟩

/-! ## Claim C7 -/

/-- Dataset for the C7 counterexample: the only file name differs from
the request's stripped prefix in ASCII case. -/
def dbC7 : List Row :=
  [mkRow "com.example" "example" "1.0" "A.jar" 5 "2020-05-05"]

/-- C7 counterexample: for `GET /api/filelastmodified/a.jar` the
stripped prefix is `a`, and no `file_name` in the dataset starts with
`a` — yet the handler returns `2020-05-05`, taken from `A.jar`, because
SQLite's `LIKE` is ASCII-case-insensitive.  The result is therefore not
"the maximum over exactly those rows whose file_name starts with the
stripped prefix" (that set is empty). -/
theorem c7_counterexample :
    splitextBase "a.jar" = "a" ∧
    (gav_file_last_modified dbC7 "a.jar").resp =
      HResp.ok ⟨"2020-05-05"⟩ ∧
    dbC7.all (fun r => ! ("a".data.isPrefixOf r.file_name.data)) = true := by
  decide

/-- What the last-modified lookup actually returns: the maximum
`last_modified` over the rows whose `file_name` matches the SQL `LIKE`
pattern "stripped prefix + `%`" — an ASCII-case-insensitive match in
which `%` and `_` inside the prefix act as wildcards — provided at
least one row matches. -/
def MaxLastModifiedSpec (db : List Row) (fn : String) : Prop :=
  ∃ m, (gav_file_last_modified db fn).resp = HResp.ok ⟨m⟩ ∧
    (∃ r ∈ db, sqlLike (splitextBase fn ++ "%") r.file_name = true ∧
      r.last_modified = m) ∧
    (∀ r ∈ db, sqlLike (splitextBase fn ++ "%") r.file_name = true →
      r.last_modified ≤ m)

/-- C7 amended: for every file name whose stripped base is non-empty
and whose derived `LIKE` pattern matches at least one row, the handler
returns the maximum `last_modified` over exactly the `LIKE`-matching
rows (a superset of the rows whose `file_name` starts with the prefix,
by case-insensitivity and wildcard characters); when no row matches,
the handler does not produce a value (see C2). -/
theorem c7_amended (db : List Row) (fn : String)
    (hlen : fn.length ≤ MAXLEN_FILE_NAME)
    (hbase : 1 ≤ (splitextBase fn).length)
    (hex : ∃ r ∈ db,
      sqlLike (splitextBase fn ++ "%") r.file_name = true) :
    MaxLastModifiedSpec db fn := by
  unfold MaxLastModifiedSpec
  have hnot : ¬ MAXLEN_FILE_NAME < fn.length := not_lt.mpr hlen
  have hnotb : ¬ (splitextBase fn).length < 1 := not_lt.mpr hbase
  obtain ⟨r0, hr0, hlike0⟩ := hex
  have hr0f : r0 ∈ db.filter
      (fun r => sqlLike (splitextBase fn ++ "%") r.file_name) :=
    List.mem_filter.mpr ⟨hr0, hlike0⟩
  have hne : (db.filter
      (fun r => sqlLike (splitextBase fn ++ "%") r.file_name)).map
        (fun r => r.last_modified) ≠ [] := by
    intro hmap
    rw [List.map_eq_nil_iff] at hmap
    rw [hmap] at hr0f
    cases hr0f
  cases hms : maxString ((db.filter
      (fun r => sqlLike (splitextBase fn ++ "%") r.file_name)).map
        (fun r => r.last_modified)) with
  | none =>
    exfalso
    obtain ⟨x, xs, hl⟩ := List.exists_cons_of_ne_nil hne
    rw [hl] at hms
    exact maxString_ne_none hms
  | some m =>
    have hsel : selectMaxLastModified db (splitextBase fn ++ "%") =
        some m := by
      unfold selectMaxLastModified
      exact hms
    refine ⟨m, ?_, ?_, ?_⟩
    · simp only [gav_file_last_modified]
      rw [if_neg hnot, if_neg hnotb, hsel]
    · rcases List.mem_map.mp (maxString_mem hms) with ⟨r, hrf, hrm⟩
      have hm := List.mem_filter.mp hrf
      exact ⟨r, hm.1, hm.2, hrm⟩
    · intro r hr hlike
      exact maxString_le hms _ (List.mem_map.mpr
        ⟨r, List.mem_filter.mpr ⟨hr, hlike⟩, rfl⟩)

theorem c7_amended_witness :
    ("example-1.0.jar".length ≤ MAXLEN_FILE_NAME) ∧
    (1 ≤ (splitextBase "example-1.0.jar").length) ∧
    (∃ r ∈ [rowBase, rowNewer],
      sqlLike (splitextBase "example-1.0.jar" ++ "%") r.file_name =
        true) ∧
    MaxLastModifiedSpec [rowBase, rowNewer] "example-1.0.jar" :=
  ⟨by decide, by decide, by decide,
    c7_amended [rowBase, rowNewer] "example-1.0.jar" (by decide)
      (by decide) (by decide)⟩

/-! ## Claim C9 -/

/-- The two upgrade endpoints' error contract: 404 when the base record
is absent; 204 when the base record is present but the newer-versions
query is empty. -/
def UpgradeStatusSpec (db : List Row) (fn g a v : String) (lim : Int) :
    Prop :=
  (selectFileName db fn = none →
    statusOf (file_upgrade db fn lim).resp = 404) ∧
  (∀ item, selectFileName db fn = some item →
    sqlUpgrade db item.group_id item.artifact_id item.version_seq lim =
      [] →
    statusOf (file_upgrade db fn lim).resp = 204) ∧
  ((selectGAV db g a v).head? = none →
    statusOf (gav_upgrade db g a v lim).resp = 404) ∧
  (∀ item, (selectGAV db g a v).head? = some item →
    sqlUpgrade db item.group_id item.artifact_id item.version_seq lim =
      [] →
    statusOf (gav_upgrade db g a v lim).resp = 204)

/-- C9: for both upgrade endpoints, an absent base record yields a 404
response, and a present base record with an empty newer-versions result
yields a 204 response. -/
theorem c9_upgrade_statuses (db : List Row) (fn g a v : String)
    (lim : Int) (hfn : fn.length ≤ MAXLEN_FILE_NAME)
    (hg : g.length ≤ MAXLEN_GROUP_ID) (ha : a.length ≤ MAXLEN_ARTIFACT_ID)
    (hv : v.length ≤ MAXLEN_ARTIFACT_VERSION)
    (hlim : lim ≤ (PAGE_SIZE_BIG : Int)) :
    UpgradeStatusSpec db fn g a v lim := by
  have hc1 : ¬ (MAXLEN_FILE_NAME < fn.length ∨
      ¬ lim ≤ (PAGE_SIZE_BIG : Int)) := by
    push_neg
    exact ⟨hfn, hlim⟩
  have hc2 : ¬ (MAXLEN_GROUP_ID < g.length ∨
      MAXLEN_ARTIFACT_ID < a.length ∨
      MAXLEN_ARTIFACT_VERSION < v.length ∨
      ¬ lim ≤ (PAGE_SIZE_BIG : Int)) := by
    push_neg
    exact ⟨hg, ha, hv, hlim⟩
  unfold UpgradeStatusSpec
  refine ⟨?_, ?_, ?_, ?_⟩
  · intro h
    simp only [file_upgrade]
    rw [if_neg hc1, h]
    rfl
  · intro item hitem hupg
    simp only [file_upgrade]
    rw [if_neg hc1]
    simp only [hitem, hupg]
    rfl
  · intro h
    simp only [gav_upgrade]
    rw [if_neg hc2, h]
    rfl
  · intro item hitem hupg
    simp only [gav_upgrade]
    rw [if_neg hc2]
    simp only [hitem, hupg]
    rfl

theorem c9_upgrade_statuses_witness :
    ("example-1.0.jar".length ≤ MAXLEN_FILE_NAME) ∧
    ("com.example".length ≤ MAXLEN_GROUP_ID) ∧
    ("example".length ≤ MAXLEN_ARTIFACT_ID) ∧
    ("2.0".length ≤ MAXLEN_ARTIFACT_VERSION) ∧
    ((1000 : Int) ≤ (PAGE_SIZE_BIG : Int)) ∧
    UpgradeStatusSpec [rowNewer] "example-1.0.jar" "com.example"
      "example" "2.0" 1000 :=
  ⟨by decide, by decide, by decide, by decide, by decide,
    c9_upgrade_statuses [rowNewer] "example-1.0.jar" "com.example"
      "example" "2.0" 1000 (by decide) (by decide) (by decide)
      (by decide) (by decide)⟩

end MavenApi
